import Mathlib

/-!
Verification development for the stage3 rootfs builder
(`src/binary.rs`, `src/builder.rs`, `src/rootfs/binaries.rs`).

The Rust code is shallowly embedded: strings stay strings, `std::path`
operations are modelled on the underlying character lists with Unix
semantics, the filesystem is an explicit state record, and the external
`ldd` subprocess is an oracle parameter.  Fallible Rust functions
(returning `anyhow::Result`) become `Except String`.
-/

namespace Stage3

/-! ## Character-list string primitives

All string manipulation is done by structural recursion over `String.data`
so that every definition evaluates by `decide`/`rfl` on concrete inputs.
-/

/-- Is `pat` a prefix of `l`? (Mirrors `str::starts_with` on substrings.) -/
def isPrefixL : List Char → List Char → Bool
  | [], _ => true
  | _ :: _, [] => false
  | p :: ps, c :: cs => p = c && isPrefixL ps cs

/-- The suffix of `l` strictly after the first occurrence of `pat`,
or `none` when `pat` does not occur.  (First-match semantics of
`str::find`/`str::split`.) -/
def afterSeq (pat : List Char) : List Char → Option (List Char)
  | [] => if pat.isEmpty then some [] else none
  | c :: cs =>
      if isPrefixL pat (c :: cs) then some (List.drop pat.length (c :: cs))
      else afterSeq pat cs

/-- The prefix of `l` up to (excluding) the first occurrence of `pat`;
the whole list when `pat` does not occur.  Together with `afterSeq` this
gives the pieces of Rust's `str::split`. -/
def upToSeq (pat : List Char) : List Char → List Char
  | [] => []
  | c :: cs => if isPrefixL pat (c :: cs) then [] else c :: upToSeq pat cs

/-- Substring containment, `str::contains`. -/
def containsSeq (pat l : List Char) : Bool :=
  (afterSeq pat l).isSome

/-- Rust `str::contains` on strings. -/
def strContains (s pat : String) : Bool :=
  containsSeq pat.data s.data

/-- Rust `str::starts_with('c')` with a character pattern. -/
def startsWithChar (s : String) (c0 : Char) : Bool :=
  match s.data with
  | [] => false
  | c :: _ => c = c0

/-- Rust `str::trim` (whitespace stripped from both ends). -/
def strTrim (s : String) : String :=
  ⟨((s.data.dropWhile Char.isWhitespace).reverse.dropWhile Char.isWhitespace).reverse⟩

/-- First whitespace-delimited token, `str::split_whitespace().next()`. -/
def firstTokenL (l : List Char) : Option (List Char) :=
  let t := (l.dropWhile Char.isWhitespace).takeWhile (fun c => !c.isWhitespace)
  if t.isEmpty then none else some t

/-- First whitespace-delimited token of a string. -/
def firstToken (s : String) : Option String :=
  (firstTokenL s.data).map (fun l => ⟨l⟩)

/-- Split at a single character (every occurrence), like `str::split('\n')`:
`n` separators yield `n+1` (possibly empty) pieces. -/
def splitChar (c0 : Char) : List Char → List (List Char)
  | [] => [[]]
  | c :: cs =>
      if c = c0 then [] :: splitChar c0 cs
      else
        match splitChar c0 cs with
        | [] => [[c]]
        | l :: ls => (c :: l) :: ls

/-- Strip one trailing carriage return, as `str::lines` does for segments
that were terminated by a newline. -/
def stripCR (l : List Char) : List Char :=
  match l.reverse with
  | '\r' :: rest => rest.reverse
  | _ => l

/-- Rust `str::lines`: split at `'\n'`, drop one `'\r'` before each `'\n'`,
and do not produce a final empty line for a trailing newline.  A trailing
`'\r'` not followed by `'\n'` is kept (documented Rust behaviour). -/
def rustLines (s : String) : List String :=
  match (splitChar '\n' s.data).reverse with
  | [] => []
  | last :: revInit =>
      (revInit.reverse.map (fun l => (⟨stripCR l⟩ : String)))
        ++ (if last.isEmpty then [] else [(⟨last⟩ : String)])

/-! ## Path primitives (Unix `std::path` semantics) -/

/-- Rust `Path::join`: an absolute right operand replaces the left;
otherwise the components are concatenated with a `/` separator. -/
def pathJoin (a b : String) : String :=
  if startsWithChar b '/' then b
  else if a.data.isEmpty then b
  else if a.data.getLast? = some '/' then a ++ b
  else a ++ "/" ++ b

/-- Rust `str::trim_start_matches('/')`: drop all leading slashes. -/
def trimSlashes (s : String) : String :=
  ⟨s.data.dropWhile (fun c => c = '/')⟩

/-- Rust `Path::is_relative` on Unix: no leading `/`. -/
def isRelative (s : String) : Bool :=
  !startsWithChar s '/'

/-- Rust `Path::file_name`: the last normal component (empty and `.`
components are skipped); `none` for a path ending in `..`, the root, or
the empty path. -/
def fileName (s : String) : Option String :=
  let comps := (splitChar '/' s.data).filter (fun c => !c.isEmpty && c ≠ ['.'])
  match comps.getLast? with
  | none => none
  | some lastc => if lastc = ['.', '.'] then none else some ⟨lastc⟩

/-- Rust `Path::parent`: the path with its final component removed
(`none` for the root and the empty path, `some ""` for a bare relative
component, `some "/"` when only the root remains). -/
def pathParent (s : String) : Option String :=
  let rcs := s.data.reverse.dropWhile (fun c => c = '/')
  if rcs.isEmpty then none
  else
    let rest := rcs.dropWhile (fun c => c ≠ '/')
    if rest.isEmpty then some ""
    else
      let rest2 := rest.dropWhile (fun c => c = '/')
      if rest2.isEmpty then some "/" else some ⟨rest2.reverse⟩

/-! ## Query output parser (`parse_ldd_output`, src/binary.rs lines 15-45) -/

/-- Contribution of one (already split) report line, translated clause by
clause from the loop body of `parse_ldd_output`: trim; a line containing
`"not found"` only logs a warning; a line containing `"=>"` takes the
first whitespace token of `split("=>").nth(1)` when it starts with `/`;
otherwise a line starting with `/` yields its first whitespace token. -/
def parseLddLine (line : String) : List String :=
  let l := strTrim line
  if strContains l "not found" then []
  else if strContains l "=>" then
    match (afterSeq ("=>".data) l.data).map (upToSeq ("=>".data)) with
    | some part =>
        match firstTokenL part with
        | some path => if startsWithChar ⟨path⟩ '/' then [(⟨path⟩ : String)] else []
        | none => []
    | none => []
  else if startsWithChar l '/' then
    match firstTokenL l.data with
    | some path => [(⟨path⟩ : String)]
    | none => []
  else []

/-- The accumulating loop of `parse_ldd_output` (`libs` is pushed in
input order). -/
def parseLddAux : List String → List String → List String
  | [], acc => acc
  | line :: rest, acc => parseLddAux rest (acc ++ parseLddLine line)

/-- Function `parse_ldd_output` (src/binary.rs): parse ldd output to extract
library paths.  Always returns `Ok` in the source; warnings are printed,
never raised. -/
def parse_ldd_output (output : String) : Except String (List String) :=
  .ok (parseLddAux (rustLines output) [])

/-! ## Filesystem state

The filesystem the Rust code manipulates through `std::fs` is an explicit
record.  `ex` is the oracle for `Path::exists`; `links` is the symlink
table consulted by `is_symlink`/`read_link`; `content` and `mode` give the
byte content (abstracted to a `Nat`) and the permission bits of each path.
`ex` and `links` are deliberately not forced to be mutually consistent:
`exists()` resolves the full (possibly multi-hop) symlink chain in the
kernel, which a one-level table cannot reproduce, so the code's fallback
branches stay reachable exactly as they are in reality. -/
structure FS where
  ex : List String
  links : List (String × String)
  content : String → Nat
  mode : String → Nat

/-- Rust `Path::exists`. -/
def FS.pexists (fs : FS) (p : String) : Bool :=
  fs.ex.contains p

/-- Rust `fs::read_link` (also decides `Path::is_symlink`). -/
def FS.readLink (fs : FS) (p : String) : Option String :=
  (fs.links.find? (fun q => q.1 = p)).map (fun q => q.2)

/-- One level of symlink resolution, as the kernel applies it when a read
operation (`fs::copy` source, `fs::metadata`) traverses `p`: a relative
target is interpreted against the link's containing directory. -/
def FS.resolve1 (fs : FS) (p : String) : String :=
  match fs.readLink p with
  | some t =>
      if isRelative t then
        match pathParent p with
        | some par => pathJoin par t
        | none => t
      else t
  | none => p

/-- The state after a successful `fs::copy src dest`: `dest` now exists
and carries the content and permission bits of the (resolved) source. -/
def FS.docopy (fs : FS) (src dest : String) : FS :=
  { fs with
    ex := dest :: fs.ex
    content := fun q => if q = dest then fs.content (fs.resolve1 src) else fs.content q
    mode := fun q => if q = dest then fs.mode (fs.resolve1 src) else fs.mode q }

/-- Rust `fs::copy`: succeeds iff the source exists (readable), otherwise the
`?` in the Rust propagates an error. -/
def FS.copyF (fs : FS) (src dest : String) : Except String FS :=
  if fs.pexists src then .ok (fs.docopy src dest)
  else .error ("Failed to copy: " ++ src)

/-- Record `BuildContext` (src/context.rs). -/
structure BuildContext where
  source : String
  staging : String
  output : String
  recipe_binary : Option String

/-- Result of `Command::new("ldd").arg(path).output()`: `.error` when the
subprocess cannot be started, otherwise the pair of `status.success()`
and the captured stdout. -/
def LddOracle : Type := String → Except Unit (Bool × String)

/-! ## Library copying (`copy_library`, src/binary.rs lines 48-114) -/

/-- The fixed candidate list of `copy_library`: rootfs, then rootfs/usr,
then the literal path against the host filesystem. -/
def libCandidates (rootfs lib_path : String) : List String :=
  [pathJoin rootfs (trimSlashes lib_path),
   pathJoin (pathJoin rootfs "usr") (trimSlashes lib_path),
   lib_path]

/-- The source-location search of `copy_library` (the spec's
`locateLibrary`): first existing candidate. -/
def locateLibrary (fs : FS) (rootfs lib_path : String) : Option String :=
  (libCandidates rootfs lib_path).find? fs.pexists

/-- Destination of a library: `staging/usr/lib64` when the original path
contains the substring `"lib64"`, else `staging/usr/lib`, under the
path's file name. -/
def libDest (staging lib_path fname : String) : String :=
  if strContains lib_path "lib64" then pathJoin (pathJoin staging "usr/lib64") fname
  else pathJoin (pathJoin staging "usr/lib") fname

/-- The symlink-handling cascade of `copy_library` (lines 89-107): copy
`actual_src` if it exists, else re-root the link target under the rootfs
and copy that if it exists, else copy the chosen source itself. -/
def copySymlinked (fs : FS) (rootfs src link_target actual_src dest : String) :
    Except String FS :=
  if fs.pexists actual_src then fs.copyF actual_src dest
  else
    let rootfs_target := pathJoin rootfs (trimSlashes link_target)
    if fs.pexists rootfs_target then fs.copyF rootfs_target dest
    else fs.copyF src dest

/-- Function `copy_library` (src/binary.rs): copy a library from rootfs to
staging, handling symlinks.  (The UTF-8 validity check on the link target
is always satisfied in the model; `create_dir_all` has no observable
effect on the file paths tracked here.) -/
def copy_library (rootfs lib_path staging : String) (fs : FS) : Except String FS :=
  match locateLibrary fs rootfs lib_path with
  | none => .error ("Could not find library: " ++ lib_path)
  | some src =>
    match fileName lib_path with
    | none => .error ("Library path has no filename: " ++ lib_path)
    | some fname =>
      let dest_path := libDest staging lib_path fname
      if fs.pexists dest_path then .ok fs
      else
        match fs.readLink src with
        | some link_target =>
            if isRelative link_target then
              match pathParent src with
              | none => .error ("Library path has no parent: " ++ src)
              | some par =>
                  copySymlinked fs rootfs src link_target (pathJoin par link_target) dest_path
            else
              copySymlinked fs rootfs src link_target link_target dest_path
        | none => fs.copyF src dest_path

/-! ## Binary search and copy (src/binary.rs lines 117-219) -/

/-- Function `find_binary`: search `usr/bin, bin, usr/sbin, sbin` under the
rootfs. -/
def find_binary (fs : FS) (rootfs binary : String) : Option String :=
  [pathJoin (pathJoin rootfs "usr/bin") binary,
   pathJoin (pathJoin rootfs "bin") binary,
   pathJoin (pathJoin rootfs "usr/sbin") binary,
   pathJoin (pathJoin rootfs "sbin") binary].find? fs.pexists

/-- Function `find_sbin_binary`: search `usr/sbin, sbin, usr/bin, bin` under the
rootfs. -/
def find_sbin_binary (fs : FS) (rootfs binary : String) : Option String :=
  [pathJoin (pathJoin rootfs "usr/sbin") binary,
   pathJoin (pathJoin rootfs "sbin") binary,
   pathJoin (pathJoin rootfs "usr/bin") binary,
   pathJoin (pathJoin rootfs "bin") binary].find? fs.pexists

/-- Function `make_executable`: read the metadata (an error when the path does not
exist), then force mode `0o755` = 493. -/
def make_executable (fs : FS) (p : String) : Except String FS :=
  if fs.pexists p then
    .ok { fs with mode := fun q => if q = p then 493 else fs.mode q }
  else .error ("Failed to read metadata: " ++ p)

/-- The guarded binary-copy step shared by `copy_binary_with_libs` and
`copy_sbin_binary_with_libs` (lines 163-167 and 198-202): skip when the
destination exists, else copy and force the executable mode. -/
def copy_binary_file (fs : FS) (bin_path dest : String) : Except String FS :=
  if fs.pexists dest then .ok fs
  else do
    let fs1 ← fs.copyF bin_path dest
    make_executable fs1 dest

/-- The per-library loop shared by all three orchestrators: a failed
`copy_library` is only a printed warning, the remaining libraries are
still processed. -/
def copyLibs (rootfs staging : String) (libs : List String) (fs : FS) : FS :=
  libs.foldl (fun acc lib =>
    match copy_library rootfs lib staging acc with
    | .ok fs1 => fs1
    | .error _ => acc) fs

/-- Function `copy_binary_with_libs` (src/binary.rs lines 152-184). -/
def copy_binary_with_libs (ldd : LddOracle) (ctx : BuildContext)
    (binary dest_dir : String) (fs : FS) : Except String (Bool × FS) :=
  match find_binary fs ctx.source binary with
  | none => .ok (false, fs)
  | some bin_path => do
      let dest := pathJoin (pathJoin ctx.staging dest_dir) binary
      let fs1 ← copy_binary_file fs bin_path dest
      match ldd bin_path with
      | .ok (true, out) => do
          let libs ← parse_ldd_output out
          .ok (true, copyLibs ctx.source ctx.staging libs fs1)
      | _ => .ok (true, fs1)

/-- Function `copy_sbin_binary_with_libs` (src/binary.rs lines 187-219): like
`copy_binary_with_libs` but searching sbin first and landing in
`usr/sbin`. -/
def copy_sbin_binary_with_libs (ldd : LddOracle) (ctx : BuildContext)
    (binary : String) (fs : FS) : Except String (Bool × FS) :=
  match find_sbin_binary fs ctx.source binary with
  | none => .ok (false, fs)
  | some bin_path => do
      let dest := pathJoin (pathJoin ctx.staging "usr/sbin") binary
      let fs1 ← copy_binary_file fs bin_path dest
      match ldd bin_path with
      | .ok (true, out) => do
          let libs ← parse_ldd_output out
          .ok (true, copyLibs ctx.source ctx.staging libs fs1)
      | _ => .ok (true, fs1)

/-- Function `copy_bash` (src/binary.rs lines 222-256): a missing bash is an
error, the copy is unconditional, a failed `ldd` spawn is an error, and
the exit status is ignored: stdout is parsed regardless. -/
def copy_bash (ldd : LddOracle) (ctx : BuildContext) (fs : FS) :
    Except String FS :=
  match [pathJoin ctx.source "usr/bin/bash",
         pathJoin ctx.source "bin/bash"].find? fs.pexists with
  | none => .error "Could not find bash in source rootfs"
  | some bash_path => do
      let bash_dest := pathJoin ctx.staging "usr/bin/bash"
      let fs1 ← fs.copyF bash_path bash_dest
      let fs2 ← make_executable fs1 bash_dest
      match ldd bash_path with
      | .error _ => .error "Failed to run ldd"
      | .ok (_, out) => do
          let libs ← parse_ldd_output out
          .ok (copyLibs ctx.source ctx.staging libs fs2)

/-! ## Catalog drivers (src/rootfs/binaries.rs) -/

/-- The `COREUTILS` catalog (src/rootfs/binaries.rs lines 11-109). -/
def COREUTILS : List String :=
  ["ls", "cat", "cp", "mv", "rm", "mkdir", "rmdir", "touch", "chmod", "chown",
   "ln", "readlink", "dirname", "basename", "realpath", "stat", "file",
   "echo", "printf", "head", "tail", "wc", "sort", "uniq", "cut", "tr",
   "diff", "tee", "yes", "grep", "find", "xargs", "which", "pwd", "uname",
   "date", "env", "printenv", "id", "whoami", "groups", "hostname", "sleep",
   "kill", "ps", "pgrep", "pkill", "nice", "nohup", "gzip", "gunzip", "xz",
   "unxz", "bzip2", "bunzip2", "tar", "cpio", "vi", "vim", "true", "false",
   "test", "expr", "seq", "df", "du", "sync", "sed", "awk", "gawk", "su",
   "sudo", "passwd", "ping", "curl", "wget", "systemctl", "journalctl",
   "timedatectl", "hostnamectl", "localectl", "loginctl", "bootctl"]

/-- The `SBIN_UTILS` catalog (src/rootfs/binaries.rs lines 112-172). -/
def SBIN_UTILS : List String :=
  ["mount", "umount", "fsck", "fsck.ext4", "e2fsck", "mkfs.ext4", "mke2fs",
   "mkfs.fat", "mkfs.vfat", "blkid", "fdisk", "sfdisk", "parted",
   "partprobe", "wipefs", "lsblk", "reboot", "shutdown", "poweroff", "halt",
   "hwclock", "lspci", "lsusb", "insmod", "rmmod", "modprobe", "lsmod",
   "depmod", "chroot", "pivot_root", "ldconfig", "useradd", "userdel",
   "usermod", "groupadd", "groupdel", "groupmod", "chpasswd", "ip", "ss",
   "ifconfig", "route", "sysctl", "losetup", "chronyd", "getenforce",
   "setenforce"]

/-- The loop of `copy_coreutils`: each binary through
`copy_binary_with_libs(ctx, binary, "usr/bin")?` (the tally that is only
printed is dropped). -/
def copyEachBinary (ldd : LddOracle) (ctx : BuildContext) :
    List String → FS → Except String FS
  | [], fs => .ok fs
  | b :: bs, fs => do
      let r ← copy_binary_with_libs ldd ctx b "usr/bin" fs
      copyEachBinary ldd ctx bs r.2

/-- The loop of `copy_sbin_utils` and `copy_login_binaries`: each binary
through `copy_sbin_binary_with_libs(ctx, binary)?`. -/
def copyEachSbinBinary (ldd : LddOracle) (ctx : BuildContext) :
    List String → FS → Except String FS
  | [], fs => .ok fs
  | b :: bs, fs => do
      let r ← copy_sbin_binary_with_libs ldd ctx b fs
      copyEachSbinBinary ldd ctx bs r.2

/-- Function `copy_coreutils` (src/rootfs/binaries.rs lines 198-210). -/
def copy_coreutils (ldd : LddOracle) (ctx : BuildContext) (fs : FS) :
    Except String FS :=
  copyEachBinary ldd ctx COREUTILS fs

/-- Function `copy_sbin_utils` (src/rootfs/binaries.rs lines 213-225). -/
def copy_sbin_utils (ldd : LddOracle) (ctx : BuildContext) (fs : FS) :
    Except String FS :=
  copyEachSbinBinary ldd ctx SBIN_UTILS fs

/-- Function `copy_shell` (src/rootfs/binaries.rs lines 228-233): just
`copy_bash(ctx)?`. -/
def copy_shell (ldd : LddOracle) (ctx : BuildContext) (fs : FS) :
    Except String FS :=
  copy_bash ldd ctx fs

/-- Function `copy_login_binaries` (src/rootfs/binaries.rs lines 285-296). -/
def copy_login_binaries (ldd : LddOracle) (ctx : BuildContext) (fs : FS) :
    Except String FS :=
  copyEachSbinBinary ldd ctx ["agetty", "login", "sulogin", "nologin"] fs

/-! ## Top-level rootfs orchestration (src/builder.rs lines 88-142)

The spec (section 1) declares the scaffolding, unit/config generation,
PAM, and recipe steps out of scope, "treated as external collaborators,
specified only at their interface boundary": each of those steps is a
parameter of type `FS → Except String FS`, while the sequencing and the
`?` error propagation of `build_rootfs` are translated from the source. -/
structure RootfsSteps where
  create_fhs_structure : FS → Except String FS
  create_symlinks : FS → Except String FS
  copy_systemd_binaries : FS → Except String FS
  copy_systemd_units : FS → Except String FS
  copy_dbus_symlinks : FS → Except String FS
  setup_getty : FS → Except String FS
  setup_serial_console : FS → Except String FS
  setup_networkd : FS → Except String FS
  set_default_target : FS → Except String FS
  setup_dbus : FS → Except String FS
  copy_udev_rules : FS → Except String FS
  copy_tmpfiles : FS → Except String FS
  copy_sysctl : FS → Except String FS
  create_etc_files : FS → Except String FS
  copy_timezone_data : FS → Except String FS
  copy_locales : FS → Except String FS
  setup_pam : FS → Except String FS
  copy_pam_modules : FS → Except String FS
  create_security_config : FS → Except String FS
  copy_recipe : FS → Except String FS
  setup_recipe_config : FS → Except String FS

/-- Function `build_rootfs` (src/builder.rs): every step is sequenced with `?`, so
any step error is terminal for the build. -/
def build_rootfs (st : RootfsSteps) (ldd : LddOracle) (ctx : BuildContext)
    (fs : FS) : Except String FS := do
  let fs ← st.create_fhs_structure fs
  let fs ← st.create_symlinks fs
  let fs ← copy_shell ldd ctx fs
  let fs ← copy_coreutils ldd ctx fs
  let fs ← copy_sbin_utils ldd ctx fs
  let fs ← st.copy_systemd_binaries fs
  let fs ← copy_login_binaries ldd ctx fs
  let fs ← st.copy_systemd_units fs
  let fs ← st.copy_dbus_symlinks fs
  let fs ← st.setup_getty fs
  let fs ← st.setup_serial_console fs
  let fs ← st.setup_networkd fs
  let fs ← st.set_default_target fs
  let fs ← st.setup_dbus fs
  let fs ← st.copy_udev_rules fs
  let fs ← st.copy_tmpfiles fs
  let fs ← st.copy_sysctl fs
  let fs ← st.create_etc_files fs
  let fs ← st.copy_timezone_data fs
  let fs ← st.copy_locales fs
  let fs ← st.setup_pam fs
  let fs ← st.copy_pam_modules fs
  let fs ← st.create_security_config fs
  let fs ← st.copy_recipe fs
  let fs ← st.setup_recipe_config fs
  .ok fs

/-! ## Specification-shaped definitions

These follow the wording of the spec claims (not the source), to be
compared with the source-shaped definitions above. -/

/-- Per-line contribution as claim C2 words it: a line containing
`"not found"` contributes nothing; a line containing `"=>"` contributes
the first whitespace-delimited token of the text after the (first) arrow,
and only when that token begins with `/`; a line without an arrow whose
trimmed text begins with `/` contributes its first whitespace-delimited
token; all other lines contribute nothing. -/
def lddLineClaimed (line : String) : List String :=
  let l := strTrim line
  if strContains l "not found" then []
  else if strContains l "=>" then
    match firstTokenL ((afterSeq ("=>".data) l.data).getD []) with
    | some path => if startsWithChar ⟨path⟩ '/' then [(⟨path⟩ : String)] else []
    | none => []
  else if startsWithChar l '/' then
    match firstTokenL l.data with
    | some path => [(⟨path⟩ : String)]
    | none => []
  else []

/-- The parser output claim C2 predicts: per-line contributions in input
line order, duplicates preserved. -/
def parseClaimed (output : String) : List String :=
  ((rustLines output).map lddLineClaimed).flatten

/-- Per-line contribution as amended for claim C2: in the arrow case the
token is the first whitespace-delimited token of the text between the
first arrow and the next arrow (or the end of the line) — the second
piece of splitting the line at `"=>"` — rather than of everything after
the first arrow. -/
def lddLineAmended (line : String) : List String :=
  let l := strTrim line
  if strContains l "not found" then []
  else if strContains l "=>" then
    match firstTokenL (upToSeq ("=>".data) ((afterSeq ("=>".data) l.data).getD [])) with
    | some path => if startsWithChar ⟨path⟩ '/' then [(⟨path⟩ : String)] else []
    | none => []
  else if startsWithChar l '/' then
    match firstTokenL l.data with
    | some path => [(⟨path⟩ : String)]
    | none => []
  else []

/-- The system-binary search order as claim C7 words it: the reverse of
the user order, i.e. `sbin, usr/sbin, bin, usr/bin`. -/
def find_sbin_binary_claimed (fs : FS) (rootfs binary : String) : Option String :=
  [pathJoin (pathJoin rootfs "sbin") binary,
   pathJoin (pathJoin rootfs "usr/sbin") binary,
   pathJoin (pathJoin rootfs "bin") binary,
   pathJoin (pathJoin rootfs "usr/bin") binary].find? fs.pexists

/-! ## Concrete scenarios for witnesses and counterexamples -/

/-- A build context over `/src` and `/stage`. -/
def ctxB : BuildContext := ⟨"/src", "/stage", "/out", none⟩

/-- An ldd oracle whose subprocess cannot be started. -/
def lddSpawnFail : LddOracle := fun _ => .error ()

/-- An ldd oracle that runs but exits with nonzero status and empty
output. -/
def lddNonzero : LddOracle := fun _ => .ok (false, "")

/-- A filesystem where bash exists in the source tree and the staging
destination `/stage/usr/bin/bash` already exists with different content
and mode. -/
def fsBash : FS :=
  { ex := ["/src/usr/bin/bash", "/stage/usr/bin/bash"]
    links := []
    content := fun q => if q = "/src/usr/bin/bash" then 5 else 7
    mode := fun _ => 420 }

/-- A filesystem where the requested system binary exists in both `sbin`
and `usr/sbin` of the rootfs `/r`. -/
def fsSbin : FS :=
  { ex := ["/r/sbin/x", "/r/usr/sbin/x"]
    links := []
    content := fun _ => 0
    mode := fun _ => 0 }

/-- The empty filesystem. -/
def fsEmpty : FS := { ex := [], links := [], content := fun _ => 0, mode := fun _ => 0 }

/-- Out-of-scope build steps that succeed without touching the tree. -/
def stepsId : RootfsSteps :=
  { create_fhs_structure := fun fs => .ok fs
    create_symlinks := fun fs => .ok fs
    copy_systemd_binaries := fun fs => .ok fs
    copy_systemd_units := fun fs => .ok fs
    copy_dbus_symlinks := fun fs => .ok fs
    setup_getty := fun fs => .ok fs
    setup_serial_console := fun fs => .ok fs
    setup_networkd := fun fs => .ok fs
    set_default_target := fun fs => .ok fs
    setup_dbus := fun fs => .ok fs
    copy_udev_rules := fun fs => .ok fs
    copy_tmpfiles := fun fs => .ok fs
    copy_sysctl := fun fs => .ok fs
    create_etc_files := fun fs => .ok fs
    copy_timezone_data := fun fs => .ok fs
    copy_locales := fun fs => .ok fs
    setup_pam := fun fs => .ok fs
    copy_pam_modules := fun fs => .ok fs
    create_security_config := fun fs => .ok fs
    copy_recipe := fun fs => .ok fs
    setup_recipe_config := fun fs => .ok fs }

/-! ## Parser lemmas -/

/-- The parser loop is the concatenation of the per-line contributions,
in input line order. -/
theorem parseLddAux_eq (ls acc : List String) :
    parseLddAux ls acc = acc ++ (ls.map parseLddLine).flatten := by
  induction ls generalizing acc with
  | nil => simp [parseLddAux]
  | cons l rest ih => simp [parseLddAux, ih]

/-- The source per-line contribution coincides with the amended claim
wording (token taken between the first and second arrow). -/
theorem parseLddLine_eq_amended (line : String) :
    parseLddLine line = lddLineAmended line := by
  unfold parseLddLine lddLineAmended
  cases hA : afterSeq ("=>".data) (strTrim line).data with
  | none =>
      have hc : strContains (strTrim line) "=>" = false := by
        unfold strContains containsSeq
        rw [hA]
        rfl
      simp [hc]
  | some a =>
      have hc : strContains (strTrim line) "=>" = true := by
        unfold strContains containsSeq
        rw [hA]
        rfl
      simp [hc, hA]

/-- Characterisation of `startsWithChar` by the head character. -/
theorem startsWithChar_iff {s : String} {c0 : Char} :
    startsWithChar s c0 = true ↔ s.data.head? = some c0 := by
  unfold startsWithChar
  cases s.data with
  | nil => simp
  | cons c cs => simp [List.head?]

/-- A token extracted from a line starting with `/` also starts
with `/`. -/
theorem firstTokenL_slash {l t : List Char} (hl : l.head? = some '/')
    (ht : firstTokenL l = some t) : t.head? = some '/' := by
  cases l with
  | nil => simp at hl
  | cons c cs =>
      have hc : c = '/' := by simpa using hl
      subst hc
      have hws : Char.isWhitespace '/' = false := by decide
      simp only [firstTokenL, List.dropWhile, hws, List.takeWhile] at ht
      simp only [Bool.not_false, List.isEmpty_cons] at ht
      cases ht
      rfl

/-- Every path produced by one parsed line begins with `/`. -/
theorem parseLddLine_starts (line s : String) (h : s ∈ parseLddLine line) :
    startsWithChar s '/' = true := by
  unfold parseLddLine at h
  dsimp only [] at h
  split at h
  · simp at h
  · split at h
    · split at h
      · split at h
        · split at h
          · simp only [List.mem_singleton] at h
            subst h
            assumption
          · simp at h
        · simp at h
      · simp at h
    · split at h
      · split at h
        next path hT =>
          simp only [List.mem_singleton] at h
          subst h
          next h3 _ =>
            exact startsWithChar_iff.mpr
              (firstTokenL_slash (startsWithChar_iff.mp h3) hT)
        next hT => simp at h
      · simp at h

/-! ## Claim C2 -/

/-- C2 counterexample: on the line `"a => /x=>y"` the parser contributes
`"/x"` (the first whitespace token of the second piece of splitting at
`"=>"`), not `"/x=>y"` (the first whitespace-delimited token after the
arrow) as the claim predicts. -/
theorem C2_counterexample :
    parse_ldd_output "a => /x=>y" = Except.ok ["/x"] ∧
    parseClaimed "a => /x=>y" = ["/x=>y"] ∧
    decide ((["/x"] : List String) = ["/x=>y"]) = false :=
  ⟨rfl, rfl, by decide⟩

/-- C2 (amended): `parse_ldd_output` processes lines in order; a line
containing `"not found"` contributes no path; a line containing `"=>"`
contributes exactly the first whitespace-delimited token of the text
between the first arrow and the next arrow (or end of line), and only
when that token begins with `/`; a line without an arrow whose trimmed
text begins with `/` contributes its first whitespace-delimited token
unchanged; all other lines contribute nothing; output order matches
input line order with duplicates preserved. -/
theorem C2_parse_per_line (output : String) :
    parse_ldd_output output =
      Except.ok (((rustLines output).map lddLineAmended).flatten) := by
  unfold parse_ldd_output
  rw [parseLddAux_eq]
  simp [show parseLddLine = lddLineAmended from funext parseLddLine_eq_amended]

/-! ## Claim C10 -/

/-- C10: for every input string, `parse_ldd_output` returns a successful
result, and every string in the returned list begins with the character
`/`. -/
theorem C10_parser_total_absolute (output : String) :
    ∃ libs, parse_ldd_output output = Except.ok libs ∧
      ∀ s ∈ libs, startsWithChar s '/' = true := by
  refine ⟨parseLddAux (rustLines output) [], rfl, fun s hs => ?_⟩
  rw [parseLddAux_eq] at hs
  simp only [List.nil_append, List.mem_flatten, List.mem_map] at hs
  obtain ⟨l, ⟨line, hline, rfl⟩, hmem⟩ := hs
  exact parseLddLine_starts line s hmem

/-! ## Filesystem lemmas -/

/-- The destination of a copy exists afterwards. -/
theorem FS.pexists_docopy_self (fs : FS) (s d : String) :
    (fs.docopy s d).pexists d = true := by
  simp [FS.pexists, FS.docopy]

/-- A copy never removes an existing path. -/
theorem FS.pexists_docopy_mono {fs : FS} {p : String} (s d : String)
    (h : fs.pexists p = true) : (fs.docopy s d).pexists p = true := by
  simp [FS.pexists, FS.docopy] at h ⊢
  exact Or.inr h

/-- Successful `fs::copy` inverted. -/
theorem copyF_ok_inv {fs fs1 : FS} {s d : String} (h : fs.copyF s d = .ok fs1) :
    fs.pexists s = true ∧ fs1 = fs.docopy s d := by
  unfold FS.copyF at h
  split at h
  next hp => exact ⟨hp, (Except.ok.inj h).symm⟩
  next hp => simp at h

/-- Successful symlink cascade inverted: some existing source was copied
to the destination. -/
theorem copySymlinked_ok_inv {fs fs1 : FS} {r src t actual d : String}
    (h : copySymlinked fs r src t actual d = .ok fs1) :
    ∃ s, fs.pexists s = true ∧ fs1 = fs.docopy s d := by
  unfold copySymlinked at h
  split at h
  · obtain ⟨hp, rfl⟩ := copyF_ok_inv h
    exact ⟨actual, hp, rfl⟩
  · dsimp only [] at h
    split at h
    · obtain ⟨hp, rfl⟩ := copyF_ok_inv h
      exact ⟨_, hp, rfl⟩
    · obtain ⟨hp, rfl⟩ := copyF_ok_inv h
      exact ⟨src, hp, rfl⟩

/-- Successful `copy_library` inverted: the library was located, the
destination was computed from the file name, and either the destination
already existed (no-op) or some existing source file was copied onto it. -/
theorem copy_library_ok_inv {r l st : String} {fs fs1 : FS}
    (h : copy_library r l st fs = .ok fs1) :
    ∃ src fname, locateLibrary fs r l = some src ∧ fileName l = some fname ∧
      (fs.pexists (libDest st l fname) = true ∧ fs1 = fs ∨
       fs.pexists (libDest st l fname) = false ∧
         ∃ s, fs.pexists s = true ∧ fs1 = fs.docopy s (libDest st l fname)) := by
  unfold copy_library at h
  split at h
  · simp at h
  next src hl =>
    split at h
    · simp at h
    next fname hf =>
      dsimp only [] at h
      refine ⟨src, fname, hl, hf, ?_⟩
      split at h
      next hd => exact Or.inl ⟨hd, (Except.ok.inj h).symm⟩
      next hd =>
        refine Or.inr ⟨by simpa using hd, ?_⟩
        split at h
        next t hlink =>
          split at h
          · split at h
            · simp at h
            · exact copySymlinked_ok_inv h
          · exact copySymlinked_ok_inv h
        next hlink =>
          obtain ⟨hp, rfl⟩ := copyF_ok_inv h
          exact ⟨src, hp, rfl⟩

/-- A located library exists. -/
theorem locateLibrary_pexists {fs : FS} {r l src : String}
    (hl : locateLibrary fs r l = some src) : fs.pexists src = true :=
  List.find?_some hl

/-- Rust `fs::copy` of an existing source succeeds. -/
theorem copyF_ok {fs : FS} {s : String} (d : String) (h : fs.pexists s = true) :
    fs.copyF s d = .ok (fs.docopy s d) := by
  simp [FS.copyF, h]

/-- Behaviour of the symlink cascade in each of its three cases. -/
theorem copySymlinked_spec (fs : FS) (r src t actual d : String) :
    (fs.pexists actual = true → copySymlinked fs r src t actual d = fs.copyF actual d) ∧
    (fs.pexists actual = false → fs.pexists (pathJoin r (trimSlashes t)) = true →
       copySymlinked fs r src t actual d = fs.copyF (pathJoin r (trimSlashes t)) d) ∧
    (fs.pexists actual = false → fs.pexists (pathJoin r (trimSlashes t)) = false →
       copySymlinked fs r src t actual d = fs.copyF src d) := by
  unfold copySymlinked
  exact ⟨fun h => by simp [h], fun h1 h2 => by simp [h1, h2],
    fun h1 h2 => by simp [h1, h2]⟩

/-- Reduction of `copy_library` once the source is located, the file name
exists and the destination is new. -/
theorem copy_library_eq_step {fs : FS} {r l staging src fname : String}
    (hl : locateLibrary fs r l = some src) (hf : fileName l = some fname)
    (hd : fs.pexists (libDest staging l fname) = false) :
    copy_library r l staging fs =
      (match fs.readLink src with
       | some t =>
           if isRelative t then
             match pathParent src with
             | none => .error ("Library path has no parent: " ++ src)
             | some par => copySymlinked fs r src t (pathJoin par t) (libDest staging l fname)
           else copySymlinked fs r src t t (libDest staging l fname)
       | none => fs.copyF src (libDest staging l fname)) := by
  simp only [copy_library, hl, hf, hd, Bool.false_eq_true, if_false]

/-! ## Claim C1 -/

/-- C1: `copy_library` tries the candidate sources in the fixed priority
rootfs+path, rootfs+usr+path, literal host path, choosing the first that
exists (and failing when none does); when the chosen source is a symbolic
link it reads one level, resolves a relative target against the link's
containing directory, copies that file if it exists, otherwise re-roots
the target under the rootfs and copies that if it exists, and otherwise
copies the originally chosen source itself rather than failing. -/
theorem C1_copy_library_locate_and_fallback (fs : FS) (r l staging : String) :
    (locateLibrary fs r l =
       (if fs.pexists (pathJoin r (trimSlashes l)) then some (pathJoin r (trimSlashes l))
        else if fs.pexists (pathJoin (pathJoin r "usr") (trimSlashes l)) then
          some (pathJoin (pathJoin r "usr") (trimSlashes l))
        else if fs.pexists l then some l
        else none)) ∧
    (locateLibrary fs r l = none →
       copy_library r l staging fs = .error ("Could not find library: " ++ l)) ∧
    (∀ src fname, locateLibrary fs r l = some src → fileName l = some fname →
      fs.pexists (libDest staging l fname) = false →
      (fs.readLink src = none →
         copy_library r l staging fs = .ok (fs.docopy src (libDest staging l fname))) ∧
      (∀ t actual, fs.readLink src = some t →
         (isRelative t = true ∧
            (pathParent src).map (fun par => pathJoin par t) = some actual ∨
          isRelative t = false ∧ actual = t) →
         (fs.pexists actual = true →
            copy_library r l staging fs =
              .ok (fs.docopy actual (libDest staging l fname))) ∧
         (fs.pexists actual = false →
          fs.pexists (pathJoin r (trimSlashes t)) = true →
            copy_library r l staging fs =
              .ok (fs.docopy (pathJoin r (trimSlashes t)) (libDest staging l fname))) ∧
         (fs.pexists actual = false →
          fs.pexists (pathJoin r (trimSlashes t)) = false →
            copy_library r l staging fs =
              .ok (fs.docopy src (libDest staging l fname))))) := by
  refine ⟨?_, ?_, ?_⟩
  · unfold locateLibrary libCandidates
    by_cases h1 : fs.pexists (pathJoin r (trimSlashes l)) <;>
      by_cases h2 : fs.pexists (pathJoin (pathJoin r "usr") (trimSlashes l)) <;>
        by_cases h3 : fs.pexists l <;>
          simp [List.find?, h1, h2, h3]
  · intro h
    simp only [copy_library, h]
  · intro src fname hl hf hd
    have hsrc := locateLibrary_pexists hl
    refine ⟨?_, ?_⟩
    · intro hnone
      rw [copy_library_eq_step hl hf hd, hnone, copyF_ok _ hsrc]
    · intro t actual hlink hact
      have hstep := copy_library_eq_step hl hf hd
      rw [hlink] at hstep
      have hstep2 : copy_library r l staging fs =
          copySymlinked fs r src t actual (libDest staging l fname) := by
        rcases hact with ⟨hrel, hpar⟩ | ⟨hrel, rfl⟩
        · obtain ⟨par, hp, rfl⟩ := Option.map_eq_some'.mp hpar
          rw [hstep]
          simp only [hrel, if_true, hp]
        · rw [hstep]
          simp only [hrel, Bool.false_eq_true, if_false]
      obtain ⟨hc1, hc2, hc3⟩ := copySymlinked_spec fs r src t actual (libDest staging l fname)
      refine ⟨fun ha => ?_, fun ha hr => ?_, fun ha hr => ?_⟩
      · rw [hstep2, hc1 ha, copyF_ok _ ha]
      · rw [hstep2, hc2 ha hr, copyF_ok _ hr]
      · rw [hstep2, hc3 ha hr, copyF_ok _ hsrc]

/-- A rootfs `/r` with a relative symlink
`/r/usr/lib64/libfoo.so -> libfoo.so.1` next to its target. -/
def fsLink : FS :=
  { ex := ["/r/usr/lib64/libfoo.so", "/r/usr/lib64/libfoo.so.1"]
    links := [("/r/usr/lib64/libfoo.so", "libfoo.so.1")]
    content := fun _ => 3
    mode := fun _ => 420 }

/-- C1 witness: on a concrete rootfs, the library `/usr/lib64/libfoo.so`
is found under the first candidate, its relative symlink target is
resolved against `/r/usr/lib64`, and that file is copied to
`/s/usr/lib64/libfoo.so`. -/
theorem C1_witness :
    copy_library "/r" "/usr/lib64/libfoo.so" "/s" fsLink =
      .ok (fsLink.docopy "/r/usr/lib64/libfoo.so.1" "/s/usr/lib64/libfoo.so") := by
  have h := ((C1_copy_library_locate_and_fallback fsLink "/r" "/usr/lib64/libfoo.so" "/s").2.2
      "/r/usr/lib64/libfoo.so" "libfoo.so" rfl rfl rfl).2
      "libfoo.so.1" "/r/usr/lib64/libfoo.so.1" rfl (Or.inl ⟨rfl, rfl⟩)
  exact h.1 rfl

/-- A rootfs `/src` containing only `/src/usr/bin/ls`. -/
def fsBin : FS :=
  { ex := ["/src/usr/bin/ls"], links := [], content := fun _ => 1, mode := fun _ => 420 }

/-- The binary-copy step on a fresh destination: copy, then force the
executable mode. -/
theorem copy_binary_file_new {fs : FS} {bin : String} (dest : String)
    (h : fs.pexists bin = true) (hd : fs.pexists dest = false) :
    copy_binary_file fs bin dest =
      .ok { fs.docopy bin dest with
            mode := fun q => if q = dest then 493 else (fs.docopy bin dest).mode q } := by
  unfold copy_binary_file
  rw [hd]
  simp only [Bool.false_eq_true, if_false]
  rw [copyF_ok _ h]
  simp [Bind.bind, Except.bind, make_executable, FS.pexists_docopy_self]

/-- The binary-copy step succeeds whenever the located binary exists. -/
theorem copy_binary_file_ok (fs : FS) {bin : String} (dest : String)
    (h : fs.pexists bin = true) :
    ∃ fs1, copy_binary_file fs bin dest = .ok fs1 := by
  by_cases hd : fs.pexists dest = true
  · exact ⟨fs, by unfold copy_binary_file; rw [hd]; rfl⟩
  · exact ⟨_, copy_binary_file_new dest h (by simpa using hd)⟩

/-- After a successful binary-copy step the destination exists. -/
theorem copy_binary_file_dest {fs fs1 : FS} {bin dest : String}
    (h : copy_binary_file fs bin dest = .ok fs1) : fs1.pexists dest = true := by
  unfold copy_binary_file at h
  split at h
  next hd => cases Except.ok.inj h; exact hd
  next hd =>
    by_cases hp : fs.pexists bin = true
    · rw [copyF_ok dest hp] at h
      simp only [Bind.bind, Except.bind, make_executable, FS.pexists_docopy_self,
        if_true] at h
      cases Except.ok.inj h
      exact FS.pexists_docopy_self fs bin dest
    · rw [show fs.copyF bin dest = .error ("Failed to copy: " ++ bin) by
        unfold FS.copyF; rw [if_neg (by simpa using hp)]] at h
      simp [Bind.bind, Except.bind] at h

/-! ## Claim C7 -/

/-- C7 counterexample: on a rootfs where the requested binary exists in
both `sbin` and `usr/sbin`, the code picks `usr/sbin/x` while the
claim's reversed order (`sbin` first) picks `sbin/x`. -/
theorem C7_counterexample :
    find_sbin_binary fsSbin "/r" "x" = some "/r/usr/sbin/x" ∧
    find_sbin_binary_claimed fsSbin "/r" "x" = some "/r/sbin/x" ∧
    decide (("/r/usr/sbin/x" : String) = "/r/sbin/x") = false :=
  ⟨rfl, rfl, by decide⟩

/-- C7 (amended): both searches return the first existing candidate in
caller-specified priority order; binaries are searched
`usr/bin, bin, usr/sbin, sbin`, and system binaries are searched
`usr/sbin, sbin, usr/bin, bin` (usr-first, not the exact reverse of the
user order). -/
theorem C7_search_order (fs : FS) (r b : String) :
    (find_binary fs r b =
       (if fs.pexists (pathJoin (pathJoin r "usr/bin") b) then
          some (pathJoin (pathJoin r "usr/bin") b)
        else if fs.pexists (pathJoin (pathJoin r "bin") b) then
          some (pathJoin (pathJoin r "bin") b)
        else if fs.pexists (pathJoin (pathJoin r "usr/sbin") b) then
          some (pathJoin (pathJoin r "usr/sbin") b)
        else if fs.pexists (pathJoin (pathJoin r "sbin") b) then
          some (pathJoin (pathJoin r "sbin") b)
        else none)) ∧
    (find_sbin_binary fs r b =
       (if fs.pexists (pathJoin (pathJoin r "usr/sbin") b) then
          some (pathJoin (pathJoin r "usr/sbin") b)
        else if fs.pexists (pathJoin (pathJoin r "sbin") b) then
          some (pathJoin (pathJoin r "sbin") b)
        else if fs.pexists (pathJoin (pathJoin r "usr/bin") b) then
          some (pathJoin (pathJoin r "usr/bin") b)
        else if fs.pexists (pathJoin (pathJoin r "bin") b) then
          some (pathJoin (pathJoin r "bin") b)
        else none)) := by
  constructor
  · unfold find_binary
    by_cases h1 : fs.pexists (pathJoin (pathJoin r "usr/bin") b) <;>
      by_cases h2 : fs.pexists (pathJoin (pathJoin r "bin") b) <;>
        by_cases h3 : fs.pexists (pathJoin (pathJoin r "usr/sbin") b) <;>
          by_cases h4 : fs.pexists (pathJoin (pathJoin r "sbin") b) <;>
            simp [List.find?, h1, h2, h3, h4]
  · unfold find_sbin_binary
    by_cases h1 : fs.pexists (pathJoin (pathJoin r "usr/bin") b) <;>
      by_cases h2 : fs.pexists (pathJoin (pathJoin r "bin") b) <;>
        by_cases h3 : fs.pexists (pathJoin (pathJoin r "usr/sbin") b) <;>
          by_cases h4 : fs.pexists (pathJoin (pathJoin r "sbin") b) <;>
            simp [List.find?, h1, h2, h3, h4]

/-! ## Claim C8 -/

/-- C8: every successful `copy_library` either leaves the tree unchanged
(existing destination) or adds exactly one path: the file name placed
under `staging/usr/lib64` when the original library path contains the
substring `"lib64"`, under `staging/usr/lib` otherwise. -/
theorem C8_destination_placement {r l st : String} {fs fs1 : FS} {fname : String}
    (hf : fileName l = some fname) (h : copy_library r l st fs = .ok fs1) :
    fs1 = fs ∨
      fs1.ex = (if strContains l "lib64" then pathJoin (pathJoin st "usr/lib64") fname
                else pathJoin (pathJoin st "usr/lib") fname) :: fs.ex := by
  obtain ⟨src, fname', hl, hf', hcase⟩ := copy_library_ok_inv h
  rw [hf] at hf'
  obtain rfl : fname = fname' := Option.some.inj hf'
  rcases hcase with ⟨_, rfl⟩ | ⟨_, s, hs, rfl⟩
  · exact Or.inl rfl
  · right
    simp [FS.docopy, libDest]

/-- C8 witness: copying `/usr/lib64/libfoo.so` out of `fsLink` lands its
file name under the 64-bit staging directory. -/
theorem C8_witness :
    fsLink.docopy "/r/usr/lib64/libfoo.so.1" "/s/usr/lib64/libfoo.so" = fsLink ∨
      (fsLink.docopy "/r/usr/lib64/libfoo.so.1" "/s/usr/lib64/libfoo.so").ex =
        (if strContains "/usr/lib64/libfoo.so" "lib64" then
           pathJoin (pathJoin "/s" "usr/lib64") "libfoo.so"
         else pathJoin (pathJoin "/s" "usr/lib") "libfoo.so") :: fsLink.ex :=
  C8_destination_placement rfl
    (show copy_library "/r" "/usr/lib64/libfoo.so" "/s" fsLink =
        .ok (fsLink.docopy "/r/usr/lib64/libfoo.so.1" "/s/usr/lib64/libfoo.so") from rfl)

/-! ## Claim C9 -/

/-- C9: a newly copied executable binary gets its mode forced to
`0o755` = 493 regardless of the source mode (via `make_executable`),
while `copy_library` never overrides modes: any mode it writes is the
mode of an existing source file. -/
theorem C9_executable_mode :
    (∀ (fs : FS) (p : String), fs.pexists p = true →
       make_executable fs p =
         .ok { fs with mode := fun q => if q = p then 493 else fs.mode q }) ∧
    (∀ (fs : FS) (bin dest : String) (fs1 : FS), fs.pexists dest = false →
       copy_binary_file fs bin dest = .ok fs1 → fs1.mode dest = 493) ∧
    (∀ (r l st : String) (fs fs1 : FS), copy_library r l st fs = .ok fs1 →
       ∀ q, fs1.mode q = fs.mode q ∨
         ∃ s, fs.pexists s = true ∧ fs1.mode q = fs.mode (fs.resolve1 s)) := by
  refine ⟨fun fs p h => by simp [make_executable, h], ?_, ?_⟩
  · intro fs bin dest fs1 hd h
    by_cases hp : fs.pexists bin = true
    · rw [copy_binary_file_new dest hp hd] at h
      cases Except.ok.inj h
      simp
    · unfold copy_binary_file at h
      rw [hd] at h
      simp only [Bool.false_eq_true, if_false] at h
      rw [show fs.copyF bin dest = .error ("Failed to copy: " ++ bin) by
        unfold FS.copyF; rw [if_neg (by simpa using hp)]] at h
      simp [Bind.bind, Except.bind] at h
  · intro r l st fs fs1 h q
    obtain ⟨src, fname, hl, hf, hcase⟩ := copy_library_ok_inv h
    rcases hcase with ⟨_, rfl⟩ | ⟨_, s, hs, rfl⟩
    · exact Or.inl rfl
    · by_cases hq : q = libDest st l fname
      · subst hq
        exact Or.inr ⟨s, hs, by simp [FS.docopy]⟩
      · exact Or.inl (by simp [FS.docopy, hq])

/-- C9 witness: copying `ls` to a fresh staging destination yields mode
493 even though the source mode is 420. -/
theorem C9_witness :
    Except.map (fun f => f.mode "/stage/usr/bin/ls")
      (copy_binary_file fsBin "/src/usr/bin/ls" "/stage/usr/bin/ls") = .ok 493 ∧
    fsBin.mode "/src/usr/bin/ls" = 420 := by
  refine ⟨?_, rfl⟩
  obtain ⟨f, hf⟩ : ∃ f,
      copy_binary_file fsBin "/src/usr/bin/ls" "/stage/usr/bin/ls" = .ok f := ⟨_, rfl⟩
  rw [hf]
  have := C9_executable_mode.2.1 fsBin "/src/usr/bin/ls" "/stage/usr/bin/ls" f rfl hf
  simp [Except.map, this]

/-! ## Claim C3 -/

/-- C3 counterexample: the shell-copy operation does not check
destination existence: with `/stage/usr/bin/bash` already present
(content 7), `copy_bash` still copies and overwrites it with the source
content 5 — a second copy is performed. -/
theorem C3_counterexample :
    fsBash.pexists "/stage/usr/bin/bash" = true ∧
    fsBash.content "/stage/usr/bin/bash" = 7 ∧
    Except.map (fun f => f.content "/stage/usr/bin/bash")
      (copy_bash lddNonzero ctxB fsBash) = .ok 5 := ⟨rfl, rfl, rfl⟩

/-- C3 (amended): the library-copy operation and the binary-copy step of
`copy_binary_with_libs`/`copy_sbin_binary_with_libs` check destination
existence before acting: with the destination present they are no-ops,
and re-running either of them is a no-op, so materializing the same
binary and its libraries a second time performs no second copy — but the
shell-copy operation (`copy_bash`) copies the shell binary
unconditionally. -/
theorem C3_idempotent_write_paths :
    (∀ (fs : FS) (r l st src fname : String),
       locateLibrary fs r l = some src → fileName l = some fname →
       fs.pexists (libDest st l fname) = true → copy_library r l st fs = .ok fs) ∧
    (∀ (r l st : String) (fs fs1 : FS),
       copy_library r l st fs = .ok fs1 → copy_library r l st fs1 = .ok fs1) ∧
    (∀ (fs : FS) (bin dest : String), fs.pexists dest = true →
       copy_binary_file fs bin dest = .ok fs) ∧
    (∀ (fs : FS) (bin dest : String) (fs1 : FS),
       copy_binary_file fs bin dest = .ok fs1 →
       copy_binary_file fs1 bin dest = .ok fs1) := by
  refine ⟨?_, ?_, ?_, ?_⟩
  · intro fs r l st src fname hl hf hd
    simp only [copy_library, hl, hf, hd, if_true]
  · intro r l st fs fs1 h
    obtain ⟨src, fname, hl, hf, hcase⟩ := copy_library_ok_inv h
    rcases hcase with ⟨hd, rfl⟩ | ⟨hd, s, hs, rfl⟩
    · exact h
    · have hmem := List.mem_of_find?_eq_some hl
      have hsrc := List.find?_some hl
      have hne : (libCandidates r l).find?
          (fs.docopy s (libDest st l fname)).pexists ≠ none := by
        intro hn
        exact (List.find?_eq_none.mp hn src hmem)
          (FS.pexists_docopy_mono _ _ hsrc)
      cases hl' : (libCandidates r l).find?
          (fs.docopy s (libDest st l fname)).pexists with
      | none => exact absurd hl' hne
      | some src' =>
          simp only [copy_library, locateLibrary, hl', hf,
            FS.pexists_docopy_self, if_true]
  · intro fs bin dest hd
    unfold copy_binary_file
    rw [hd]
    rfl
  · intro fs bin dest fs1 h
    have hdest := copy_binary_file_dest h
    unfold copy_binary_file
    rw [hdest]
    rfl

/-- C3 witness: with the staging destination of bash already present,
the (guarded) binary-copy step is a no-op on that same tree. -/
theorem C3_witness :
    copy_binary_file fsBash "/src/usr/bin/bash" "/stage/usr/bin/bash" = .ok fsBash :=
  C3_idempotent_write_paths.2.2.1 fsBash "/src/usr/bin/bash" "/stage/usr/bin/bash" rfl

/-! ## Orchestrator case analysis -/

/-- Function `copy_binary_with_libs` either skips a missing binary with `false` or
copies a found binary and reports `true`; it never returns an error. -/
theorem copy_binary_with_libs_cases (ldd : LddOracle) (ctx : BuildContext)
    (b d : String) (fs : FS) :
    (find_binary fs ctx.source b = none ∧
       copy_binary_with_libs ldd ctx b d fs = .ok (false, fs)) ∨
    (∃ p fs1, find_binary fs ctx.source b = some p ∧
       copy_binary_with_libs ldd ctx b d fs = .ok (true, fs1)) := by
  cases hf : find_binary fs ctx.source b with
  | none => exact Or.inl ⟨rfl, by simp [copy_binary_with_libs, hf]⟩
  | some p =>
      right
      have hp := List.find?_some hf
      obtain ⟨fs1, hcb⟩ := copy_binary_file_ok fs (pathJoin (pathJoin ctx.staging d) b) hp
      cases hldd : ldd p with
      | error e =>
          exact ⟨p, fs1, rfl,
            by simp [copy_binary_with_libs, hf, hcb, hldd, Bind.bind, Except.bind]⟩
      | ok pr =>
          obtain ⟨flag, out⟩ := pr
          cases flag
          · exact ⟨p, fs1, rfl,
              by simp [copy_binary_with_libs, hf, hcb, hldd, Bind.bind, Except.bind]⟩
          · exact ⟨p, copyLibs ctx.source ctx.staging (parseLddAux (rustLines out) []) fs1,
              rfl, by simp [copy_binary_with_libs, hf, hcb, hldd, Bind.bind, Except.bind,
                parse_ldd_output]⟩

/-- Same case analysis for `copy_sbin_binary_with_libs`. -/
theorem copy_sbin_binary_with_libs_cases (ldd : LddOracle) (ctx : BuildContext)
    (b : String) (fs : FS) :
    (find_sbin_binary fs ctx.source b = none ∧
       copy_sbin_binary_with_libs ldd ctx b fs = .ok (false, fs)) ∨
    (∃ p fs1, find_sbin_binary fs ctx.source b = some p ∧
       copy_sbin_binary_with_libs ldd ctx b fs = .ok (true, fs1)) := by
  cases hf : find_sbin_binary fs ctx.source b with
  | none => exact Or.inl ⟨rfl, by simp [copy_sbin_binary_with_libs, hf]⟩
  | some p =>
      right
      have hp := List.find?_some hf
      obtain ⟨fs1, hcb⟩ :=
        copy_binary_file_ok fs (pathJoin (pathJoin ctx.staging "usr/sbin") b) hp
      cases hldd : ldd p with
      | error e =>
          exact ⟨p, fs1, rfl,
            by simp [copy_sbin_binary_with_libs, hf, hcb, hldd, Bind.bind, Except.bind]⟩
      | ok pr =>
          obtain ⟨flag, out⟩ := pr
          cases flag
          · exact ⟨p, fs1, rfl,
              by simp [copy_sbin_binary_with_libs, hf, hcb, hldd, Bind.bind, Except.bind]⟩
          · exact ⟨p, copyLibs ctx.source ctx.staging (parseLddAux (rustLines out) []) fs1,
              rfl, by simp [copy_sbin_binary_with_libs, hf, hcb, hldd, Bind.bind,
                Except.bind, parse_ldd_output]⟩

/-! ## Claim C4 -/

/-- C4 counterexample: for the shell, a dependency-query subprocess that
cannot be started is fatal: `copy_bash` returns an error (which
`build_rootfs` propagates with `?`). -/
theorem C4_counterexample :
    copy_bash lddSpawnFail ctxB fsBash = .error "Failed to run ldd" := rfl

/-- C4 (amended): for `copy_binary_with_libs` and
`copy_sbin_binary_with_libs` a failed spawn or nonzero exit status only
skips the library copies (the binary copy still happens and the call
still succeeds); for the shell, a failed spawn is a fatal error, and the
exit status does not gate parsing: `copy_bash` behaves identically on
success and failure statuses. -/
theorem C4_query_failure_handling :
    (∀ (ldd : LddOracle) (ctx : BuildContext) (b d : String) (fs : FS) (p : String),
       find_binary fs ctx.source b = some p →
       (ldd p = .error () ∨ ∃ out, ldd p = .ok (false, out)) →
       copy_binary_with_libs ldd ctx b d fs =
         Except.map (fun fs1 => (true, fs1))
           (copy_binary_file fs p (pathJoin (pathJoin ctx.staging d) b))) ∧
    (∀ (ldd : LddOracle) (ctx : BuildContext) (b : String) (fs : FS) (p : String),
       find_sbin_binary fs ctx.source b = some p →
       (ldd p = .error () ∨ ∃ out, ldd p = .ok (false, out)) →
       copy_sbin_binary_with_libs ldd ctx b fs =
         Except.map (fun fs1 => (true, fs1))
           (copy_binary_file fs p (pathJoin (pathJoin ctx.staging "usr/sbin") b))) ∧
    (∀ (ldd : LddOracle) (ctx : BuildContext) (fs : FS) (p : String),
       [pathJoin ctx.source "usr/bin/bash",
        pathJoin ctx.source "bin/bash"].find? fs.pexists = some p →
       ldd p = .error () →
       copy_bash ldd ctx fs = .error "Failed to run ldd") ∧
    (∀ (ctx : BuildContext) (fs : FS) (out : String) (flag1 flag2 : Bool),
       copy_bash (fun _ => .ok (flag1, out)) ctx fs =
         copy_bash (fun _ => .ok (flag2, out)) ctx fs) := by
  refine ⟨?_, ?_, ?_, ?_⟩
  · intro ldd ctx b d fs p hf hldd
    simp only [copy_binary_with_libs, hf]
    cases hcb : copy_binary_file fs p (pathJoin (pathJoin ctx.staging d) b) with
    | error e => simp [Except.map, Bind.bind, Except.bind]
    | ok fs1 =>
        rcases hldd with h | ⟨out, h⟩ <;>
          simp [Except.map, Bind.bind, Except.bind, h]
  · intro ldd ctx b fs p hf hldd
    simp only [copy_sbin_binary_with_libs, hf]
    cases hcb : copy_binary_file fs p (pathJoin (pathJoin ctx.staging "usr/sbin") b) with
    | error e => simp [Except.map, Bind.bind, Except.bind]
    | ok fs1 =>
        rcases hldd with h | ⟨out, h⟩ <;>
          simp [Except.map, Bind.bind, Except.bind, h]
  · intro ldd ctx fs p hfind hldd
    have hp := List.find?_some hfind
    simp only [copy_bash, hfind]
    rw [copyF_ok _ hp]
    simp [Bind.bind, Except.bind, make_executable, FS.pexists_docopy_self, hldd]
  · intro ctx fs out flag1 flag2
    unfold copy_bash
    cases hfind : [pathJoin ctx.source "usr/bin/bash",
        pathJoin ctx.source "bin/bash"].find? fs.pexists <;> simp

/-- C4 witness: a spawn failure for `ls` leaves only the binary-copy
step; the call itself succeeds. -/
theorem C4_witness :
    copy_binary_with_libs lddSpawnFail ctxB "ls" "usr/bin" fsBin =
      Except.map (fun fs1 => (true, fs1))
        (copy_binary_file fsBin "/src/usr/bin/ls"
          (pathJoin (pathJoin "/stage" "usr/bin") "ls")) :=
  C4_query_failure_handling.1 lddSpawnFail ctxB "ls" "usr/bin" fsBin "/src/usr/bin/ls"
    rfl (Or.inl rfl)

/-! ## Claim C5 -/

/-- C5 counterexample: a per-binary condition does surface as a terminal
error from the build: with a source tree lacking bash, `build_rootfs`
fails even though every out-of-scope step succeeds. -/
theorem C5_counterexample :
    build_rootfs stepsId lddSpawnFail ctxB fsEmpty =
      .error "Could not find bash in source rootfs" := rfl

/-- C5 (amended): a catalog binary not found in any search root is only
skipped (`Ok false`) and the per-binary orchestrators never return an
error, so no coreutils/sbin/login binary condition is terminal — except
the shell: when bash is missing from the source root, `copy_bash` fails
and `build_rootfs` propagates the error. -/
theorem C5_error_propagation :
    (∀ (ldd : LddOracle) (ctx : BuildContext) (b d : String) (fs : FS),
       ∃ r, copy_binary_with_libs ldd ctx b d fs = .ok r) ∧
    (∀ (ldd : LddOracle) (ctx : BuildContext) (b : String) (fs : FS),
       ∃ r, copy_sbin_binary_with_libs ldd ctx b fs = .ok r) ∧
    (∀ (ldd : LddOracle) (ctx : BuildContext) (b d : String) (fs : FS),
       find_binary fs ctx.source b = none →
       copy_binary_with_libs ldd ctx b d fs = .ok (false, fs)) ∧
    (∀ (st : RootfsSteps) (ldd : LddOracle) (ctx : BuildContext) (fs fs1 fs2 : FS),
       st.create_fhs_structure fs = .ok fs1 →
       st.create_symlinks fs1 = .ok fs2 →
       fs2.pexists (pathJoin ctx.source "usr/bin/bash") = false →
       fs2.pexists (pathJoin ctx.source "bin/bash") = false →
       build_rootfs st ldd ctx fs = .error "Could not find bash in source rootfs") := by
  refine ⟨?_, ?_, ?_, ?_⟩
  · intro ldd ctx b d fs
    rcases copy_binary_with_libs_cases ldd ctx b d fs with ⟨_, he⟩ | ⟨p, fs1, _, he⟩
    · exact ⟨(false, fs), he⟩
    · exact ⟨(true, fs1), he⟩
  · intro ldd ctx b fs
    rcases copy_sbin_binary_with_libs_cases ldd ctx b fs with ⟨_, he⟩ | ⟨p, fs1, _, he⟩
    · exact ⟨(false, fs), he⟩
    · exact ⟨(true, fs1), he⟩
  · intro ldd ctx b d fs hf
    simp [copy_binary_with_libs, hf]
  · intro st ldd ctx fs fs1 fs2 h1 h2 h3 h4
    have hshell : copy_shell ldd ctx fs2 =
        .error "Could not find bash in source rootfs" := by
      unfold copy_shell copy_bash
      simp [List.find?, h3, h4]
    simp [build_rootfs, h1, h2, hshell, Bind.bind, Except.bind]

/-- C5 witness: a missing catalog binary is skipped with `Ok false` on
the empty tree. -/
theorem C5_witness :
    copy_binary_with_libs lddSpawnFail ctxB "nosuchbinary" "usr/bin" fsEmpty =
      .ok (false, fsEmpty) :=
  C5_error_propagation.2.2.1 lddSpawnFail ctxB "nosuchbinary" "usr/bin" fsEmpty rfl

/-! ## Claim C6 -/

/-- C6: the per-binary orchestrators return `Ok false` exactly when the
binary is not found and `Ok true` when it is found; the boolean does not
depend on the dependency-query oracle at all (so no library failure can
change it); and a library whose copy fails is skipped while the
remaining libraries are still processed. -/
theorem C6_per_binary_boolean (ldd ldd2 : LddOracle) (ctx : BuildContext)
    (b d : String) (fs : FS) :
    (find_binary fs ctx.source b = none →
       copy_binary_with_libs ldd ctx b d fs = .ok (false, fs)) ∧
    (∀ p, find_binary fs ctx.source b = some p →
       ∃ fs1, copy_binary_with_libs ldd ctx b d fs = .ok (true, fs1)) ∧
    (Except.map Prod.fst (copy_binary_with_libs ldd ctx b d fs) =
       Except.map Prod.fst (copy_binary_with_libs ldd2 ctx b d fs)) ∧
    (find_sbin_binary fs ctx.source b = none →
       copy_sbin_binary_with_libs ldd ctx b fs = .ok (false, fs)) ∧
    (∀ p, find_sbin_binary fs ctx.source b = some p →
       ∃ fs1, copy_sbin_binary_with_libs ldd ctx b fs = .ok (true, fs1)) ∧
    (Except.map Prod.fst (copy_sbin_binary_with_libs ldd ctx b fs) =
       Except.map Prod.fst (copy_sbin_binary_with_libs ldd2 ctx b fs)) ∧
    (∀ (r st lib : String) (rest : List String) (fs0 : FS) (e : String),
       copy_library r lib st fs0 = .error e →
       copyLibs r st (lib :: rest) fs0 = copyLibs r st rest fs0) := by
  refine ⟨?_, ?_, ?_, ?_, ?_, ?_, ?_⟩
  · intro hf
    simp [copy_binary_with_libs, hf]
  · intro p hf
    rcases copy_binary_with_libs_cases ldd ctx b d fs with ⟨hn, _⟩ | ⟨p', fs1, _, he⟩
    · rw [hf] at hn; exact absurd hn (by simp)
    · exact ⟨fs1, he⟩
  · rcases copy_binary_with_libs_cases ldd ctx b d fs with ⟨hf, he⟩ | ⟨p, fs1, hf, he⟩ <;>
      rcases copy_binary_with_libs_cases ldd2 ctx b d fs with ⟨hf2, he2⟩ | ⟨p2, fs2, hf2, he2⟩ <;>
        rw [he, he2] <;> first
          | rfl
          | (rw [hf] at hf2; exact absurd hf2 (by simp))
  · intro hf
    simp [copy_sbin_binary_with_libs, hf]
  · intro p hf
    rcases copy_sbin_binary_with_libs_cases ldd ctx b fs with ⟨hn, _⟩ | ⟨p', fs1, _, he⟩
    · rw [hf] at hn; exact absurd hn (by simp)
    · exact ⟨fs1, he⟩
  · rcases copy_sbin_binary_with_libs_cases ldd ctx b fs with ⟨hf, he⟩ | ⟨p, fs1, hf, he⟩ <;>
      rcases copy_sbin_binary_with_libs_cases ldd2 ctx b fs with ⟨hf2, he2⟩ | ⟨p2, fs2, hf2, he2⟩ <;>
        rw [he, he2] <;> first
          | rfl
          | (rw [hf] at hf2; exact absurd hf2 (by simp))
  · intro r st lib rest fs0 e he
    simp [copyLibs, he]

/-- C6 witness: on the empty tree the orchestrator reports `false`
(binary not found) without error. -/
theorem C6_witness :
    copy_binary_with_libs lddNonzero ctxB "zzz" "usr/bin" fsEmpty =
      .ok (false, fsEmpty) :=
  (C6_per_binary_boolean lddNonzero lddNonzero ctxB "zzz" "usr/bin" fsEmpty).1 rfl

end Stage3
